import Mathlib

/-!
Verification of the Prestige-AI icon-generation pipeline
(`generate-app-icons.py`, supported by `convert-logo.py`).

The pipeline is shallowly embedded: file paths are lists of path
segments, the filesystem is a finite association map from paths to file
contents together with a set of directories, and every external tool
(the `magick` rasterizer/packer, the macOS `iconutil` bundler, `cp`,
`rm`) is modelled by an oracle carried in a `World` structure.  Each
Python function becomes a Lean function that returns its boolean result,
the updated filesystem, and a chronological trace of events (probes,
tool invocations, directory creations, file writes, deletions and log
messages), so both functional and temporal properties can be stated.
-/

namespace IconGen

/-- A file path, as a list of path segments. -/
abbrev Path := List String

/-- The filesystem: an association map from path to file content plus a
set of existing directories. -/
structure FS where
  files : List (Path × String)
  dirs : List Path
deriving DecidableEq

/-- Read the content of a file, `none` if the file does not exist. -/
def FS.read (fs : FS) (p : Path) : Option String :=
  (fs.files.find? (fun e => e.1 == p)).map (fun e => e.2)

/-- Does a file exist at this path? -/
def FS.fileExists (fs : FS) (p : Path) : Bool :=
  (fs.read p).isSome

/-- Write (create or overwrite) a file. -/
def FS.write (fs : FS) (p : Path) (c : String) : FS :=
  ⟨(p, c) :: fs.files.filter (fun e => e.1 != p), fs.dirs⟩

/-- `Path(d).mkdir(exist_ok=True)`: create a directory if absent. -/
def FS.mkdir (fs : FS) (p : Path) : FS :=
  if fs.dirs.contains p then fs else ⟨fs.files, p :: fs.dirs⟩

/-- Does a directory exist at this path? -/
def FS.dirExists (fs : FS) (p : Path) : Bool :=
  fs.dirs.contains p

/-- `rm -rf d`: remove the directory and everything below it. -/
def FS.removeTree (fs : FS) (d : Path) : FS :=
  ⟨fs.files.filter (fun e => !(d.isPrefixOf e.1)),
   fs.dirs.filter (fun q => !(d.isPrefixOf q))⟩

/-- The empty filesystem. -/
def FS.empty : FS := ⟨[], []⟩

/-- Observable events of a pipeline run, in chronological order. -/
inductive Event where
  | mkdirE (p : Path)
  | writeE (p : Path)
  | removeE (p : Path)
  | probeE (tool : String)
  | rasterizeE (size : Nat)
  | packE (inputs : List Path) (output : Path)
  | icnsRunE (d : Path)
  | cpRunE (src dst : Path)
  | logE (msg : String)
deriving DecidableEq

/-- Events that mutate the filesystem. -/
def Event.isMutation : Event → Bool
  | .mkdirE _ => true
  | .writeE _ => true
  | .removeE _ => true
  | _ => false

/-- Events that are a mere tool probe or log line. -/
def Event.isProbeOrLog : Event → Bool
  | .probeE _ => true
  | .logE _ => true
  | _ => false

/-- Events emitted by a `cp` invocation (the copy run and its write). -/
def Event.isCpOrWrite : Event → Bool
  | .cpRunE _ _ => true
  | .writeE _ => true
  | _ => false

/-- The external environment: which tools are callable, the host OS,
and deterministic oracles for the external image tools (`none` models a
non-zero exit / `CalledProcessError`). -/
structure World where
  magickAvailable : Bool
  iconutilAvailable : Bool
  isDarwin : Bool
  rasterize : String → Nat → Option String
  pack : List String → Option String
  icnsBundle : List (Path × String) → Option String

/-- The `required_tools` table of `check_dependencies`. -/
def required_tools : List (String × String) :=
  [("magick", "ImageMagick (brew install imagemagick)"),
   ("iconutil", "macOS iconutil (built-in on macOS)")]

/-- Whether probing a tool with `--version` succeeds in this world. -/
def toolAvailable (w : World) (t : String) : Bool :=
  if t == "magick" then w.magickAvailable
  else if t == "iconutil" then w.iconutilAvailable
  else false

/-- The loop body of `check_dependencies`: probe one tool, accumulating
the missing list and the trace. -/
def checkTool (w : World) (acc : List String × List Event) (ti : String × String) :
    List String × List Event :=
  let tr := acc.2 ++ [Event.probeE ti.1]
  if toolAvailable w ti.1 then
    (acc.1, tr ++ [Event.logE (ti.1 ++ " is available")])
  else if ti.1 == "iconutil" && !w.isDarwin then
    (acc.1, tr ++ [Event.logE (ti.1 ++ " not available (not on macOS)")])
  else
    (acc.1 ++ [ti.1 ++ " - Install: " ++ ti.2], tr)

/-- `check_dependencies`: probe each required tool; a missing `iconutil`
is only informational off macOS.  Returns whether the mandatory set is
complete, plus the probe/log trace (no filesystem access). -/
def check_dependencies (w : World) : Bool × List Event :=
  let r := required_tools.foldl (checkTool w) ([], [])
  if r.1.isEmpty then (true, r.2)
  else (false, r.2 ++ [Event.logE "Missing required tools:"] ++ r.1.map Event.logE)

/-- The output directories created by `create_directories`. -/
def outputDirs : List Path := [["icons"], ["icons", "png"], ["build"]]

/-- The loop body of `create_directories`. -/
def mkdirLoop : List Path → FS → FS × List Event
  | [], fs => (fs, [])
  | d :: rest, fs =>
    let r := mkdirLoop rest (fs.mkdir d)
    (r.1, Event.mkdirE d :: r.2)

/-- `create_directories`: `mkdir(exist_ok=True)` each output directory. -/
def create_directories (fs : FS) : FS × List Event :=
  mkdirLoop outputDirs fs

/-- The target icon sizes of `generate_png_sizes`. -/
def sizes : List Nat := [16, 32, 48, 64, 128, 256, 512, 1024]

/-- The source vector image path. -/
def svg_file : Path := ["prestige-ai-logo.svg"]

/-- The file name `icon-{size}x{size}.png`. -/
def iconName (size : Nat) : String :=
  "icon-" ++ toString size ++ "x" ++ toString size ++ ".png"

/-- The raster output path `icons/png/icon-{size}x{size}.png`. -/
def pngPath (size : Nat) : Path := ["icons", "png", iconName size]

/-- The per-size loop of `generate_png_sizes`: invoke the rasterizer for
each size in order; on the first failure return `False` at once. -/
def rasterLoop (w : World) (c : String) : List Nat → FS → Bool × FS × List Event
  | [], fs => (true, fs, [])
  | size :: rest, fs =>
    match w.rasterize c size with
    | some png =>
      let r := rasterLoop w c rest (fs.write (pngPath size) png)
      (r.1, r.2.1,
       Event.rasterizeE size :: Event.writeE (pngPath size) ::
         Event.logE ("Generated " ++ iconName size) :: r.2.2)
    | none =>
      (false, fs,
       [Event.rasterizeE size, Event.logE ("Failed to generate " ++ iconName size)])

/-- `generate_png_sizes`: abort if the SVG is absent, otherwise run the
rasterizer loop over `sizes`. -/
def generate_png_sizes (w : World) (fs : FS) : Bool × FS × List Event :=
  match fs.read svg_file with
  | none => (false, fs, [Event.logE "SVG file not found: prestige-ai-logo.svg"])
  | some c =>
    let r := rasterLoop w c sizes fs
    (r.1, r.2.1, Event.logE "Generating PNG files..." :: r.2.2)

/-- The iconset staging directory of `create_icns_file`. -/
def iconset_dir : Path := ["icons", "prestige-ai.iconset"]

/-- The `.icns` output path. -/
def icns_output : Path := ["icons", "prestige-ai.icns"]

/-- The `icon_mappings` table: size to iconset alias file names. -/
def icon_mappings : List (Nat × List String) :=
  [(16, ["icon_16x16.png"]),
   (32, ["icon_16x16@2x.png", "icon_32x32.png"]),
   (64, ["icon_32x32@2x.png"]),
   (128, ["icon_128x128.png"]),
   (256, ["icon_128x128@2x.png", "icon_256x256.png"]),
   (512, ["icon_256x256@2x.png", "icon_512x512.png"]),
   (1024, ["icon_512x512@2x.png"])]

/-- `cp` one raster to each of its iconset alias names in turn. -/
def copyNames (size : Nat) (c : String) : List String → FS → FS × List Event
  | [], fs => (fs, [])
  | n :: rest, fs =>
    let r := copyNames size c rest (fs.write (iconset_dir ++ [n]) c)
    (r.1,
     Event.cpRunE (pngPath size) (iconset_dir ++ [n]) ::
       Event.writeE (iconset_dir ++ [n]) :: r.2)

/-- Copy one size's raster to each of its iconset alias names (guarded
by `Path(source).exists()` in the source). -/
def copyIcon (fs : FS) (size : Nat) (names : List String) : FS × List Event :=
  match fs.read (pngPath size) with
  | some c => copyNames size c names fs
  | none => (fs, [])

/-- The copy loop of `create_icns_file` over a mapping table. -/
def icnsCopyLoop : List (Nat × List String) → FS → FS × List Event
  | [], fs => (fs, [])
  | m :: rest, fs =>
    let r := copyIcon fs m.1 m.2
    let r2 := icnsCopyLoop rest r.1
    (r2.1, r.2 ++ r2.2)

/-- The whole copy loop of `create_icns_file` over `icon_mappings`. -/
def icnsCopyAll (fs : FS) : FS × List Event :=
  icnsCopyLoop icon_mappings fs

/-- The files currently inside the iconset staging directory (the input
handed to `iconutil`). -/
def iconsetFiles (fs : FS) : List (Path × String) :=
  fs.files.filter (fun e => iconset_dir.isPrefixOf e.1)

/-- `create_icns_file`: no-op off macOS; otherwise stage the iconset,
invoke `iconutil`, and only on success write the `.icns` and `rm -rf`
the staging directory (on failure the `except` branch returns `False`
without reaching the cleanup call). -/
def create_icns_file (w : World) (fs : FS) : Bool × FS × List Event :=
  if !w.isDarwin then
    (true, fs, [Event.logE "Skipping .icns creation (not on macOS)"])
  else
    let fs1 := fs.mkdir iconset_dir
    let r := icnsCopyAll fs1
    let tr := Event.mkdirE iconset_dir :: Event.logE "Creating .icns file..." :: r.2
    match w.icnsBundle (iconsetFiles r.1) with
    | some c =>
      (true, (r.1.write icns_output c).removeTree iconset_dir,
       tr ++ [Event.icnsRunE iconset_dir, Event.writeE icns_output,
              Event.removeE iconset_dir])
    | none =>
      (false, r.1,
       tr ++ [Event.icnsRunE iconset_dir, Event.logE "Failed to create .icns file"])

/-- The `ico_sizes` list of `create_ico_file`. -/
def ico_sizes : List Nat := [16, 32, 48, 64, 128, 256]

/-- The `.ico` output path. -/
def ico_output : Path := ["icons", "prestige-ai.ico"]

/-- `create_ico_file`: filter the size list to the rasters that exist;
with none, fail without invoking the packer; otherwise pack them all. -/
def create_ico_file (w : World) (fs : FS) : Bool × FS × List Event :=
  let existing_files := (ico_sizes.map pngPath).filter fs.fileExists
  if existing_files.isEmpty then
    (false, fs, [Event.logE "No PNG files found for .ico creation"])
  else
    match w.pack (existing_files.filterMap fs.read) with
    | some c =>
      (true, fs.write ico_output c,
       [Event.logE "Creating .ico file...",
        Event.packE existing_files ico_output, Event.writeE ico_output])
    | none =>
      (false, fs,
       [Event.logE "Creating .ico file...",
        Event.packE existing_files ico_output,
        Event.logE "Failed to create .ico file"])

/-- Insertion into a Python `dict` literal: an existing key keeps its
position and gets the new value, a new key is appended. -/
def dictInsert (d : List (Path × String)) (k : Path) (v : String) :
    List (Path × String) :=
  if d.any (fun e => e.1 == k) then
    d.map (fun e => if e.1 == k then (k, v) else e)
  else d ++ [(k, v)]

/-- The `favicon_mappings` dict literal of `create_favicon_files`; the
32px source path appears twice as a key, so Python dict semantics apply. -/
def favicon_mappings : List (Path × String) :=
  dictInsert
    (dictInsert
      (dictInsert [] (pngPath 32) "favicon-32x32.png")
      (pngPath 16) "favicon-16x16.png")
    (pngPath 32) "favicon.png"

/-- The copy loop of `create_favicon_files`: copy each existing mapped
source to its web-convention name. -/
def favCopyLoop : List (Path × String) → FS → FS × List Event
  | [], fs => (fs, [])
  | m :: rest, fs =>
    match fs.read m.1 with
    | some c =>
      let r := favCopyLoop rest (fs.write [m.2] c)
      (r.1,
       Event.cpRunE m.1 [m.2] :: Event.writeE [m.2] ::
         Event.logE ("Generated " ++ m.2) :: r.2)
    | none => favCopyLoop rest fs

/-- The copy loop of `create_favicon_files` over `favicon_mappings`. -/
def favCopy (fs : FS) : FS × List Event :=
  favCopyLoop favicon_mappings fs

/-- The combined favicon output path. -/
def favicon_ico : Path := ["favicon.ico"]

/-- `create_favicon_files`: copy the mapped rasters to web names, then,
only when both the 16px and 32px rasters exist, pack `favicon.ico`; a
packer failure is logged but not propagated (the function returns no
status). -/
def create_favicon_files (w : World) (fs : FS) : FS × List Event :=
  let r := favCopy fs
  let tr := Event.logE "Creating favicon files..." :: r.2
  if r.1.fileExists (pngPath 16) && r.1.fileExists (pngPath 32) then
    match w.pack ([pngPath 16, pngPath 32].filterMap r.1.read) with
    | some c =>
      (r.1.write favicon_ico c,
       tr ++ [Event.packE [pngPath 16, pngPath 32] favicon_ico,
              Event.writeE favicon_ico])
    | none =>
      (r.1,
       tr ++ [Event.packE [pngPath 16, pngPath 32] favicon_ico,
              Event.logE "Failed to create favicon.ico"])
  else (r.1, tr)

/-- The build-config output path. -/
def config_output : Path := ["electron-build-config.txt"]

/-- The literal `package_json_updates` text written by
`update_electron_config`. -/
def package_json_updates : String :=
  String.intercalate "\n"
    ["",
     "# Add these to your package.json build configuration:",
     "",
     "\"build\": \x7b",
     "  \"appId\": \"com.prestige-ai.app\",",
     "  \"productName\": \"Prestige AI\",",
     "  \"directories\": \x7b",
     "    \"output\": \"dist\"",
     "  \x7d,",
     "  \"files\": [",
     "    \"dist-electron/\",",
     "    \"dist/\",",
     "    \"package.json\"",
     "  ],",
     "  \"mac\": \x7b",
     "    \"icon\": \"icons/prestige-ai.icns\",",
     "    \"category\": \"public.app-category.developer-tools\"",
     "  \x7d,",
     "  \"win\": \x7b",
     "    \"icon\": \"icons/prestige-ai.ico\",",
     "    \"target\": \"nsis\"",
     "  \x7d,",
     "  \"linux\": \x7b",
     "    \"icon\": \"icons/png/icon-512x512.png\",",
     "    \"target\": \"AppImage\"",
     "  \x7d",
     "\x7d",
     ""]

/-- `update_electron_config`: write the fixed build-config snippet. -/
def update_electron_config (fs : FS) : FS × List Event :=
  (fs.write config_output package_json_updates,
   [Event.logE "Updating Electron configuration...",
    Event.writeE config_output,
    Event.logE "Created electron-build-config.txt with build configuration"])

/-- `main`: the whole pipeline.  A dependency failure aborts before any
filesystem access; a raster failure aborts after directory creation; the
three assemblers' results are not inspected, and the config emitter
always follows them. -/
def main (w : World) (fs : FS) : FS × List Event :=
  let dep := check_dependencies w
  if !dep.1 then
    (fs, dep.2 ++ [Event.logE "Please install required dependencies and try again"])
  else
    let d := create_directories fs
    let g := generate_png_sizes w d.1
    if !g.1 then
      (g.2.1, dep.2 ++ d.2 ++ g.2.2 ++ [Event.logE "Failed to generate PNG files"])
    else
      let a := create_icns_file w g.2.1
      let b := create_ico_file w a.2.1
      let f := create_favicon_files w b.2.1
      let e := update_electron_config f.1
      (e.1,
       dep.2 ++ d.2 ++ g.2.2 ++ a.2.2 ++ b.2.2 ++ f.2 ++ e.2 ++
         [Event.logE "App icon generation complete!"])

/-- The sizes for which a rasterizer invocation appears in a trace, in
order. -/
def rasterizedSizes (tr : List Event) : List Nat :=
  tr.filterMap (fun e => match e with | .rasterizeE n => some n | _ => none)

/-- The PNG outputs of a filesystem, one entry per configured size. -/
def pngOutputs (fs : FS) : List (Option String) :=
  sizes.map (fun s => fs.read (pngPath s))

/-!  ## Concrete hosts and filesystems used as test inputs  -/

/-- A non-macOS host with every tool available and total oracles. -/
def allToolsWorld : World :=
  ⟨true, true, false,
   fun c n => some (c ++ "#" ++ toString n),
   fun xs => some (String.intercalate "+" xs),
   fun _ => some "icns-archive"⟩

/-- The same host on macOS. -/
def darwinWorld : World := { allToolsWorld with isDarwin := true }

/-- A macOS host whose `iconutil` invocation always fails. -/
def darwinBundlerFailWorld : World :=
  { darwinWorld with icnsBundle := fun _ => none }

/-- A host whose rasterizer fails for every size above 32. -/
def rasterFailWorld : World :=
  { allToolsWorld with
      rasterize := fun _ n => if n ≤ 32 then some "raster" else none }

/-- A host missing the mandatory rasterizer. -/
def noMagickWorld : World := { allToolsWorld with magickAvailable := false }

/-- A filesystem holding only the source SVG. -/
def svgOnlyFS : FS := FS.empty.write svg_file "svg-content"

/-- A filesystem holding only the 16px raster. -/
def png16FS : FS := FS.empty.write (pngPath 16) "png-16"

/-- A filesystem holding the 16px and 32px rasters. -/
def pngPairFS : FS := (FS.empty.write (pngPath 16) "png-16").write (pngPath 32) "png-32"

/-!  ## Basic filesystem lemmas  -/

theorem FS.read_write (fs : FS) (p q : Path) (c : String) :
    (fs.write p c).read q = if q = p then some c else fs.read q := by
  have key : ∀ l : List (Path × String),
      (l.filter (fun e => e.1 != p)).find? (fun e => e.1 == q) =
        if q = p then none else l.find? (fun e => e.1 == q) := by
    intro l
    induction l with
    | nil => by_cases h : q = p <;> simp [h]
    | cons a t ih =>
      by_cases hap : a.1 = p
      · by_cases hq : q = p
        · simp [List.filter_cons, hap, hq, ih]
        · have haq : ¬ a.1 = q := by rw [hap]; exact fun h => hq h.symm
          simp [List.filter_cons, hap, hq, ih, haq]
          exact (List.find?_cons_of_neg t (by simpa using haq)).symm
      · by_cases haq : a.1 = q
        · have hq : ¬ q = p := fun h => hap (haq.trans h)
          simp [List.filter_cons, hap, haq, hq]
        · simp [List.filter_cons, hap, haq, ih]
  unfold FS.write FS.read
  by_cases hq : q = p
  · subst hq; simp
  · have hpq : ¬ p = q := fun h => hq h.symm
    simp [key, hq, hpq]

theorem FS.read_mkdir (fs : FS) (d q : Path) : (fs.mkdir d).read q = fs.read q := by
  unfold FS.mkdir
  split <;> rfl

theorem FS.read_removeTree (fs : FS) (d q : Path) :
    (fs.removeTree d).read q = if d.isPrefixOf q then none else fs.read q := by
  have key : ∀ l : List (Path × String),
      (l.filter (fun e => !(d.isPrefixOf e.1))).find? (fun e => e.1 == q) =
        if d.isPrefixOf q then none else l.find? (fun e => e.1 == q) := by
    intro l
    induction l with
    | nil => cases h : d.isPrefixOf q <;> simp [h]
    | cons a t ih =>
      by_cases haq : a.1 = q
      · cases hp : d.isPrefixOf q <;>
          simp [List.filter_cons, haq, hp, ih, List.find?_cons]
      · cases hp : d.isPrefixOf a.1 <;> cases hq : d.isPrefixOf q <;>
          simp [List.filter_cons, hp, hq, ih, List.find?_cons, haq]
  unfold FS.removeTree FS.read
  rw [key]
  cases d.isPrefixOf q <;> simp

theorem FS.dirs_write (fs : FS) (p : Path) (c : String) :
    (fs.write p c).dirs = fs.dirs := rfl

theorem FS.dirExists_mkdir_self (fs : FS) (d : Path) :
    (fs.mkdir d).dirExists d = true := by
  unfold FS.mkdir FS.dirExists
  split
  · assumption
  · simp [List.contains, List.elem]

theorem FS.dirExists_removeTree_self (fs : FS) (d : Path) :
    (fs.removeTree d).dirExists d = false := by
  unfold FS.removeTree FS.dirExists
  simp [List.contains]

theorem FS.files_mkdir (fs : FS) (d : Path) : (fs.mkdir d).files = fs.files := by
  unfold FS.mkdir
  split <;> rfl

theorem FS.read_eq_of_files {fs1 fs2 : FS} (h : fs1.files = fs2.files) (q : Path) :
    fs1.read q = fs2.read q := by
  unfold FS.read
  rw [h]

/-!  ## Directory-initialization lemmas  -/

theorem mkdirLoop_files (l : List Path) : ∀ fs : FS, (mkdirLoop l fs).1.files = fs.files := by
  induction l with
  | nil => intro fs; rfl
  | cons d rest ih =>
    intro fs
    simpa [mkdirLoop, FS.files_mkdir] using ih (fs.mkdir d)

theorem mkdirLoop_read (l : List Path) (fs : FS) (q : Path) :
    (mkdirLoop l fs).1.read q = fs.read q :=
  FS.read_eq_of_files (mkdirLoop_files l fs) q

theorem mkdirLoop_trace (l : List Path) : ∀ fs : FS, (mkdirLoop l fs).2 = l.map Event.mkdirE := by
  induction l with
  | nil => intro fs; rfl
  | cons d rest ih => intro fs; simp [mkdirLoop, ih]

/-!  ## Rasterizer-loop lemmas  -/

theorem rasterLoop_read_of_not_target (w : World) (c : String) (l : List Nat) :
    ∀ (fs : FS) (q : Path), (∀ s ∈ l, q ≠ pngPath s) →
      (rasterLoop w c l fs).2.1.read q = fs.read q := by
  induction l with
  | nil => intro fs q _; rfl
  | cons s rest ih =>
    intro fs q h
    simp only [rasterLoop]
    cases hr : w.rasterize c s with
    | none => rfl
    | some png =>
      simp only []
      rw [ih _ q (fun t ht => h t (List.mem_cons_of_mem _ ht)), FS.read_write]
      simp [h s (List.mem_cons_self _ _)]

theorem rasterLoop_true (w : World) (c : String) (l : List Nat) :
    ∀ fs : FS, (∀ s ∈ l, (w.rasterize c s).isSome) → (rasterLoop w c l fs).1 = true := by
  induction l with
  | nil => intro fs _; rfl
  | cons s rest ih =>
    intro fs hall
    obtain ⟨png, hpng⟩ := Option.isSome_iff_exists.mp (hall s (List.mem_cons_self _ _))
    simp only [rasterLoop]
    rw [hpng]
    exact ih _ (fun t ht => hall t (List.mem_cons_of_mem _ ht))

theorem rasterLoop_read_target (w : World) (c : String) (l : List Nat) :
    ∀ fs : FS, (∀ s ∈ l, (w.rasterize c s).isSome) → (l.map pngPath).Nodup →
      ∀ s ∈ l, (rasterLoop w c l fs).2.1.read (pngPath s) = w.rasterize c s := by
  induction l with
  | nil => intro fs _ _ s hs; cases hs
  | cons a rest ih =>
    intro fs hall hnd s hs
    obtain ⟨png, hpng⟩ := Option.isSome_iff_exists.mp (hall a (List.mem_cons_self _ _))
    simp only [List.map_cons, List.nodup_cons] at hnd
    simp only [rasterLoop]
    rw [hpng]
    simp only []
    rcases List.mem_cons.mp hs with rfl | hs'
    · rw [rasterLoop_read_of_not_target w c rest _ (pngPath s)
        (fun t ht h => hnd.1 (h ▸ List.mem_map_of_mem pngPath ht))]
      rw [FS.read_write]
      simp [hpng]
    · exact ih _ (fun t ht => hall t (List.mem_cons_of_mem _ ht)) hnd.2 s hs'

theorem rasterizedSizes_rasterLoop (w : World) (c : String) (l : List Nat) :
    ∀ fs : FS, (∀ s ∈ l, (w.rasterize c s).isSome) →
      rasterizedSizes (rasterLoop w c l fs).2.2 = l := by
  induction l with
  | nil => intro fs _; rfl
  | cons s rest ih =>
    intro fs hall
    obtain ⟨png, hpng⟩ := Option.isSome_iff_exists.mp (hall s (List.mem_cons_self _ _))
    simp only [rasterLoop]
    rw [hpng]
    simp only [rasterizedSizes, List.filterMap_cons] at *
    simp [ih _ (fun t ht => hall t (List.mem_cons_of_mem _ ht))]

theorem rasterLoop_fail (w : World) (c : String) (s : Nat)
    (hs : w.rasterize c s = none) :
    ∀ (pre : List Nat) (post : List Nat) (fs : FS),
      (∀ p ∈ pre, (w.rasterize c p).isSome) →
      (rasterLoop w c (pre ++ s :: post) fs).1 = false ∧
      rasterizedSizes (rasterLoop w c (pre ++ s :: post) fs).2.2 = pre ++ [s] := by
  intro pre
  induction pre with
  | nil =>
    intro post fs _
    simp only [List.nil_append, rasterLoop]
    rw [hs]
    simp [rasterizedSizes]
  | cons a rest ih =>
    intro post fs hall
    obtain ⟨png, hpng⟩ := Option.isSome_iff_exists.mp (hall a (List.mem_cons_self _ _))
    simp only [List.cons_append, rasterLoop]
    rw [hpng]
    have h := ih post (fs.write (pngPath a) png) (fun t ht => hall t (List.mem_cons_of_mem _ ht))
    simp only [rasterizedSizes, List.filterMap_cons] at *
    simp [h.1, h.2]

/-!  ## `generate_png_sizes` lemmas  -/

theorem sizes_pngPath_nodup : (sizes.map pngPath).Nodup := by decide

theorem generate_success (w : World) (fs : FS) (c : String)
    (hsvg : fs.read svg_file = some c)
    (hall : ∀ s ∈ sizes, (w.rasterize c s).isSome) :
    (generate_png_sizes w fs).1 = true ∧
    (∀ s ∈ sizes, (generate_png_sizes w fs).2.1.read (pngPath s) = w.rasterize c s) ∧
    (∀ q : Path, (∀ s ∈ sizes, q ≠ pngPath s) →
      (generate_png_sizes w fs).2.1.read q = fs.read q) := by
  simp only [generate_png_sizes]
  rw [hsvg]
  exact ⟨rasterLoop_true w c sizes fs hall,
    rasterLoop_read_target w c sizes fs hall sizes_pngPath_nodup,
    fun q hq => rasterLoop_read_of_not_target w c sizes fs q hq⟩

/-!  ## macOS bundle assembler lemmas  -/

theorem copyNames_read (size : Nat) (c : String) (names : List String) :
    ∀ (fs : FS) (q : Path), (∀ n : String, q ≠ iconset_dir ++ [n]) →
      (copyNames size c names fs).1.read q = fs.read q := by
  induction names with
  | nil => intro fs q _; rfl
  | cons n rest ih =>
    intro fs q h
    simp only [copyNames]
    rw [ih _ q h, FS.read_write]
    simp [h n]

theorem copyNames_dirs (size : Nat) (c : String) (names : List String) :
    ∀ fs : FS, (copyNames size c names fs).1.dirs = fs.dirs := by
  induction names with
  | nil => intro fs; rfl
  | cons n rest ih =>
    intro fs
    simpa [copyNames, FS.dirs_write] using ih (fs.write (iconset_dir ++ [n]) c)

theorem copyNames_events (size : Nat) (c : String) (names : List String) :
    ∀ fs : FS, ∀ e ∈ (copyNames size c names fs).2, e.isCpOrWrite = true := by
  induction names with
  | nil => intro fs e he; cases he
  | cons n rest ih =>
    intro fs e he
    simp only [copyNames, List.mem_cons] at he
    rcases he with rfl | rfl | he
    · rfl
    · rfl
    · exact ih _ e he

theorem copyIcon_read (fs : FS) (size : Nat) (names : List String) (q : Path)
    (h : ∀ n : String, q ≠ iconset_dir ++ [n]) :
    (copyIcon fs size names).1.read q = fs.read q := by
  unfold copyIcon
  cases fs.read (pngPath size) with
  | none => rfl
  | some c => exact copyNames_read size c names fs q h

theorem copyIcon_dirs (fs : FS) (size : Nat) (names : List String) :
    (copyIcon fs size names).1.dirs = fs.dirs := by
  unfold copyIcon
  cases fs.read (pngPath size) with
  | none => rfl
  | some c => exact copyNames_dirs size c names fs

theorem copyIcon_events (fs : FS) (size : Nat) (names : List String) :
    ∀ e ∈ (copyIcon fs size names).2, e.isCpOrWrite = true := by
  unfold copyIcon
  cases fs.read (pngPath size) with
  | none => intro e he; cases he
  | some c => exact copyNames_events size c names fs

theorem icnsCopyLoop_read (l : List (Nat × List String)) :
    ∀ (fs : FS) (q : Path), (∀ n : String, q ≠ iconset_dir ++ [n]) →
      (icnsCopyLoop l fs).1.read q = fs.read q := by
  induction l with
  | nil => intro fs q _; rfl
  | cons m rest ih =>
    intro fs q h
    simp only [icnsCopyLoop]
    rw [ih _ q h, copyIcon_read fs m.1 m.2 q h]

theorem icnsCopyLoop_dirs (l : List (Nat × List String)) :
    ∀ fs : FS, (icnsCopyLoop l fs).1.dirs = fs.dirs := by
  induction l with
  | nil => intro fs; rfl
  | cons m rest ih =>
    intro fs
    simp only [icnsCopyLoop]
    rw [ih, copyIcon_dirs]

theorem icnsCopyLoop_events (l : List (Nat × List String)) :
    ∀ fs : FS, ∀ e ∈ (icnsCopyLoop l fs).2, e.isCpOrWrite = true := by
  induction l with
  | nil => intro fs e he; cases he
  | cons m rest ih =>
    intro fs e he
    simp only [icnsCopyLoop, List.mem_append] at he
    rcases he with he | he
    · exact copyIcon_events fs m.1 m.2 e he
    · exact ih _ e he

theorem iconsetAlias_take (n : String) : (iconset_dir ++ [n]).take 2 = iconset_dir := rfl

theorem create_icns_read (w : World) (fs : FS) (q : Path)
    (h1 : q.take 2 ≠ iconset_dir) (h2 : q ≠ icns_output) :
    (create_icns_file w fs).2.1.read q = fs.read q := by
  have halias : ∀ n : String, q ≠ iconset_dir ++ [n] := by
    intro n h
    exact h1 (by rw [h, iconsetAlias_take])
  have hnp : iconset_dir.isPrefixOf q = false := by
    cases hp : iconset_dir.isPrefixOf q
    · rfl
    · exfalso
      have : iconset_dir <+: q := by
        rw [← List.isPrefixOf_iff_prefix]; exact hp
      obtain ⟨t, ht⟩ := this
      rcases t with _ | ⟨x, _ | ⟨y, t'⟩⟩
      · exact h1 (by rw [← ht]; simp [iconset_dir])
      · exact halias x ht.symm
      · exact h1 (by rw [← ht]; simp [iconset_dir])
  unfold create_icns_file
  cases hd : w.isDarwin with
  | false => rfl
  | true =>
    simp only [Bool.not_true, Bool.false_eq_true, if_false]
    cases hb : w.icnsBundle (iconsetFiles (icnsCopyAll (fs.mkdir iconset_dir)).1) with
    | some c =>
      simp only [icnsCopyAll]
      rw [FS.read_removeTree, hnp]
      simp only [Bool.false_eq_true, if_false]
      rw [FS.read_write]
      simp only [h2, if_false]
      rw [icnsCopyLoop_read _ _ q halias, FS.read_mkdir]
    | none =>
      simp only [icnsCopyAll]
      rw [icnsCopyLoop_read _ _ q halias, FS.read_mkdir]

theorem create_icns_skip (w : World) (fs : FS) (hd : w.isDarwin = false) :
    create_icns_file w fs =
      (true, fs, [Event.logE "Skipping .icns creation (not on macOS)"]) := by
  unfold create_icns_file
  rw [hd]
  rfl

theorem create_icns_run_mem (w : World) (fs : FS) (hd : w.isDarwin = true) :
    Event.icnsRunE iconset_dir ∈ (create_icns_file w fs).2.2 := by
  unfold create_icns_file
  rw [hd]
  simp only [Bool.not_true, Bool.false_eq_true, if_false]
  cases w.icnsBundle (iconsetFiles (icnsCopyAll (fs.mkdir iconset_dir)).1) <;> simp

/-!  ## Windows bundle assembler lemmas  -/

theorem create_ico_read (w : World) (fs : FS) (q : Path) (h : q ≠ ico_output) :
    (create_ico_file w fs).2.1.read q = fs.read q := by
  simp only [create_ico_file]
  split
  · rfl
  · split
    · simp [FS.read_write, h]
    · rfl

theorem create_ico_pack_mem (w : World) (fs : FS)
    (hex : ∀ s ∈ ico_sizes, fs.fileExists (pngPath s) = true) :
    Event.packE (ico_sizes.map pngPath) ico_output ∈ (create_ico_file w fs).2.2 := by
  have hfil : (ico_sizes.map pngPath).filter fs.fileExists = ico_sizes.map pngPath := by
    rw [List.filter_eq_self]
    intro p hp
    obtain ⟨s, hs, rfl⟩ := List.mem_map.mp hp
    exact hex s hs
  have hne : (ico_sizes.map pngPath).isEmpty = false := by decide
  simp only [create_ico_file, hfil, hne]
  simp only [Bool.false_eq_true, if_false]
  cases w.pack ((ico_sizes.map pngPath).filterMap fs.read) <;> simp

/-!  ## Favicon assembler lemmas  -/

theorem favicon_mappings_eq :
    favicon_mappings = [(pngPath 32, "favicon.png"), (pngPath 16, "favicon-16x16.png")] := by
  decide

theorem favCopyLoop_read (l : List (Path × String)) :
    ∀ (fs : FS) (q : Path), (∀ m ∈ l, q ≠ [m.2]) →
      (favCopyLoop l fs).1.read q = fs.read q := by
  induction l with
  | nil => intro fs q _; rfl
  | cons m rest ih =>
    intro fs q h
    simp only [favCopyLoop]
    cases fs.read m.1 with
    | none => exact ih _ q (fun t ht => h t (List.mem_cons_of_mem _ ht))
    | some c =>
      simp only []
      rw [ih _ q (fun t ht => h t (List.mem_cons_of_mem _ ht)), FS.read_write]
      simp [h m (List.mem_cons_self _ _)]

theorem pngPath_ne_single (n : Nat) (a : String) : pngPath n ≠ [a] := by
  simp [pngPath]

theorem pngPath_ne_double (n : Nat) (a b : String) : pngPath n ≠ [a, b] := by
  simp [pngPath]

theorem pngPath_take (n : Nat) : (pngPath n).take 2 = ["icons", "png"] := rfl

theorem create_favicon_read (w : World) (fs : FS) (q : Path)
    (h1 : q ≠ ["favicon.png"]) (h2 : q ≠ ["favicon-16x16.png"]) (h3 : q ≠ favicon_ico) :
    (create_favicon_files w fs).1.read q = fs.read q := by
  have hcopy : ∀ m ∈ favicon_mappings, q ≠ [m.2] := by
    rw [favicon_mappings_eq]
    intro m hm
    simp only [List.mem_cons, List.not_mem_nil, or_false] at hm
    rcases hm with rfl | rfl
    · exact h1
    · exact h2
  have hfc : (favCopy fs).1.read q = fs.read q :=
    favCopyLoop_read favicon_mappings fs q hcopy
  simp only [create_favicon_files]
  split
  · split
    · simp [FS.read_write, h3, hfc]
    · exact hfc
  · exact hfc

theorem favCopy_read_pngPath (fs : FS) (n : Nat) :
    (favCopy fs).1.read (pngPath n) = fs.read (pngPath n) := by
  unfold favCopy
  exact favCopyLoop_read favicon_mappings fs (pngPath n)
    (fun m _ => pngPath_ne_single n m.2)

theorem create_favicon_pack_mem (w : World) (fs : FS)
    (h16 : fs.fileExists (pngPath 16) = true)
    (h32 : fs.fileExists (pngPath 32) = true) :
    Event.packE [pngPath 16, pngPath 32] favicon_ico ∈ (create_favicon_files w fs).2 := by
  have e16 : (favCopy fs).1.fileExists (pngPath 16) = true := by
    unfold FS.fileExists at h16 ⊢
    rw [favCopy_read_pngPath]
    exact h16
  have e32 : (favCopy fs).1.fileExists (pngPath 32) = true := by
    unfold FS.fileExists at h32 ⊢
    rw [favCopy_read_pngPath]
    exact h32
  simp only [create_favicon_files, e16, e32]
  simp only [Bool.and_self, if_true]
  cases w.pack ([pngPath 16, pngPath 32].filterMap (favCopy fs).1.read) <;> simp

/-!  ## Config emitter and dependency prober lemmas  -/

theorem update_config_read (fs : FS) (q : Path) (h : q ≠ config_output) :
    (update_electron_config fs).1.read q = fs.read q := by
  unfold update_electron_config
  simp only []
  rw [FS.read_write]
  simp [h]

theorem checkTool_events (w : World) (ti : String × String)
    (acc : List String × List Event)
    (h : ∀ e ∈ acc.2, e.isProbeOrLog = true) :
    ∀ e ∈ (checkTool w acc ti).2, e.isProbeOrLog = true := by
  intro e he
  simp only [checkTool] at he
  split at he <;>
    [skip; split at he] <;>
    simp only [List.mem_append, List.mem_singleton] at he <;>
    first
      | (rcases he with (he | rfl) | rfl
         · exact h e he
         · rfl
         · rfl)
      | (rcases he with he | rfl
         · exact h e he
         · rfl)

theorem foldl_checkTool_events (w : World) (ts : List (String × String)) :
    ∀ acc : List String × List Event, (∀ e ∈ acc.2, e.isProbeOrLog = true) →
      ∀ e ∈ (ts.foldl (checkTool w) acc).2, e.isProbeOrLog = true := by
  induction ts with
  | nil => intro acc h; exact h
  | cons t rest ih =>
    intro acc h
    exact ih _ (checkTool_events w t acc h)

theorem check_dependencies_events (w : World) :
    ∀ e ∈ (check_dependencies w).2, e.isProbeOrLog = true := by
  have hbase := foldl_checkTool_events w required_tools ([], []) (by intro e he; cases he)
  intro e he
  simp only [check_dependencies] at he
  split at he
  · exact hbase e he
  · simp only [List.mem_append] at he
    rcases he with (he | he) | he
    · exact hbase e he
    · simp only [List.mem_singleton] at he
      rw [he]
      rfl
    · obtain ⟨m, _, rfl⟩ := List.mem_map.mp he
      rfl

/-!  ## Whole-pipeline lemmas  -/

theorem create_directories_read (fs : FS) (q : Path) :
    (create_directories fs).1.read q = fs.read q := by
  unfold create_directories
  exact mkdirLoop_read outputDirs fs q

theorem main_success (w : World) (fs : FS) (c : String)
    (hdep : (check_dependencies w).1 = true)
    (hsvg : fs.read svg_file = some c)
    (hall : ∀ s ∈ sizes, (w.rasterize c s).isSome) :
    main w fs =
      ((update_electron_config
          (create_favicon_files w
            (create_ico_file w
              (create_icns_file w
                (generate_png_sizes w (create_directories fs).1).2.1).2.1).2.1).1).1,
       (check_dependencies w).2 ++ (create_directories fs).2 ++
         (generate_png_sizes w (create_directories fs).1).2.2 ++
         (create_icns_file w (generate_png_sizes w (create_directories fs).1).2.1).2.2 ++
         (create_ico_file w
           (create_icns_file w
             (generate_png_sizes w (create_directories fs).1).2.1).2.1).2.2 ++
         (create_favicon_files w
           (create_ico_file w
             (create_icns_file w
               (generate_png_sizes w (create_directories fs).1).2.1).2.1).2.1).2 ++
         (update_electron_config
           (create_favicon_files w
             (create_ico_file w
               (create_icns_file w
                 (generate_png_sizes w (create_directories fs).1).2.1).2.1).2.1).1).2 ++
         [Event.logE "App icon generation complete!"]) := by
  have hsvg' : (create_directories fs).1.read svg_file = some c := by
    rw [create_directories_read]
    exact hsvg
  have hg : (generate_png_sizes w (create_directories fs).1).1 = true :=
    (generate_success w _ c hsvg' hall).1
  simp [main, hdep, hg]

theorem main_success_fst (w : World) (fs : FS) (c : String)
    (hdep : (check_dependencies w).1 = true)
    (hsvg : fs.read svg_file = some c)
    (hall : ∀ s ∈ sizes, (w.rasterize c s).isSome) :
    (main w fs).1 =
      (update_electron_config
        (create_favicon_files w
          (create_ico_file w
            (create_icns_file w
              (generate_png_sizes w (create_directories fs).1).2.1).2.1).2.1).1).1 := by
  rw [main_success w fs c hdep hsvg hall]

theorem main_read_pngPath (w : World) (fs : FS) (c : String)
    (hdep : (check_dependencies w).1 = true)
    (hsvg : fs.read svg_file = some c)
    (hall : ∀ s ∈ sizes, (w.rasterize c s).isSome) :
    ∀ s ∈ sizes, (main w fs).1.read (pngPath s) = w.rasterize c s := by
  intro s hs
  have hsvg' : (create_directories fs).1.read svg_file = some c := by
    rw [create_directories_read]
    exact hsvg
  rw [main_success_fst w fs c hdep hsvg hall,
    update_config_read _ _ (pngPath_ne_single s _),
    create_favicon_read _ _ _ (pngPath_ne_single s _) (pngPath_ne_single s _)
      (pngPath_ne_single s _),
    create_ico_read _ _ _ (pngPath_ne_double s _ _),
    create_icns_read _ _ _ (by rw [pngPath_take]; decide) (pngPath_ne_double s _ _)]
  exact (generate_success w _ c hsvg' hall).2.1 s hs

theorem main_read_svg (w : World) (fs : FS) (c : String)
    (hdep : (check_dependencies w).1 = true)
    (hsvg : fs.read svg_file = some c)
    (hall : ∀ s ∈ sizes, (w.rasterize c s).isSome) :
    (main w fs).1.read svg_file = some c := by
  have hsvg' : (create_directories fs).1.read svg_file = some c := by
    rw [create_directories_read]
    exact hsvg
  rw [main_success_fst w fs c hdep hsvg hall,
    update_config_read _ _ (by decide),
    create_favicon_read _ _ _ (by decide) (by decide) (by decide),
    create_ico_read _ _ _ (by decide),
    create_icns_read _ _ _ (by decide) (by decide),
    (generate_success w _ c hsvg' hall).2.2 svg_file
      (fun s _ => by simp [svg_file, pngPath])]
  exact hsvg'

theorem main_success_snd (w : World) (fs : FS) (c : String)
    (hdep : (check_dependencies w).1 = true)
    (hsvg : fs.read svg_file = some c)
    (hall : ∀ s ∈ sizes, (w.rasterize c s).isSome) :
    (main w fs).2 =
      (check_dependencies w).2 ++ (create_directories fs).2 ++
        (generate_png_sizes w (create_directories fs).1).2.2 ++
        (create_icns_file w (generate_png_sizes w (create_directories fs).1).2.1).2.2 ++
        (create_ico_file w
          (create_icns_file w
            (generate_png_sizes w (create_directories fs).1).2.1).2.1).2.2 ++
        (create_favicon_files w
          (create_ico_file w
            (create_icns_file w
              (generate_png_sizes w (create_directories fs).1).2.1).2.1).2.1).2 ++
        (update_electron_config
          (create_favicon_files w
            (create_ico_file w
              (create_icns_file w
                (generate_png_sizes w (create_directories fs).1).2.1).2.1).2.1).1).2 ++
        [Event.logE "App icon generation complete!"] := by
  rw [main_success w fs c hdep hsvg hall]

theorem main_config_write (w : World) (fs : FS) (c : String)
    (hdep : (check_dependencies w).1 = true)
    (hsvg : fs.read svg_file = some c)
    (hall : ∀ s ∈ sizes, (w.rasterize c s).isSome) :
    Event.writeE config_output ∈ (main w fs).2 := by
  rw [main_success_snd w fs c hdep hsvg hall]
  simp [update_electron_config, List.mem_append]

theorem create_directories_trace (fs : FS) :
    (create_directories fs).2 = outputDirs.map Event.mkdirE := by
  unfold create_directories
  exact mkdirLoop_trace outputDirs fs

/-!  ## Further favicon helpers  -/

theorem create_favicon_read_favCopy (w : World) (fs : FS) (q : Path)
    (h : q ≠ favicon_ico) :
    (create_favicon_files w fs).1.read q = (favCopy fs).1.read q := by
  simp only [create_favicon_files]
  split
  · split
    · simp [FS.read_write, h]
    · rfl
  · rfl

theorem favCopy_read_faviconpng (fs : FS) (c32 : String)
    (h32 : fs.read (pngPath 32) = some c32) :
    (favCopy fs).1.read ["favicon.png"] = some c32 := by
  unfold favCopy
  rw [favicon_mappings_eq]
  cases h16 : fs.read (pngPath 16) <;>
    simp [favCopyLoop, FS.read_write, h32, h16, pngPath_ne_single]

theorem favCopy_read_favicon16 (fs : FS) (c16 : String)
    (h16 : fs.read (pngPath 16) = some c16) :
    (favCopy fs).1.read ["favicon-16x16.png"] = some c16 := by
  unfold favCopy
  rw [favicon_mappings_eq]
  cases h32 : fs.read (pngPath 32) <;>
    simp [favCopyLoop, FS.read_write, h32, h16, pngPath_ne_single]

theorem favCopyLoop_no_pack (l : List (Path × String)) :
    ∀ (fs : FS) (ins : List Path) (out : Path),
      Event.packE ins out ∉ (favCopyLoop l fs).2 := by
  induction l with
  | nil => intro fs ins out h; cases h
  | cons m rest ih =>
    intro fs ins out h
    simp only [favCopyLoop] at h
    split at h
    · simp only [List.mem_cons] at h
      rcases h with h | h | h | h
      · simp at h
      · simp at h
      · simp at h
      · exact ih _ ins out h
    · exact ih _ ins out h

theorem favCopyLoop_writes (l : List (Path × String)) :
    ∀ (fs : FS) (p : Path), Event.writeE p ∈ (favCopyLoop l fs).2 →
      ∃ m ∈ l, p = [m.2] := by
  induction l with
  | nil => intro fs p h; cases h
  | cons m rest ih =>
    intro fs p h
    simp only [favCopyLoop] at h
    split at h
    · simp only [List.mem_cons] at h
      rcases h with h | h | h | h
      · simp at h
      · simp only [Event.writeE.injEq] at h
        exact ⟨m, List.mem_cons_self _ _, h⟩
      · simp at h
      · obtain ⟨m', hm', hp⟩ := ih _ p h
        exact ⟨m', List.mem_cons_of_mem _ hm', hp⟩
    · obtain ⟨m', hm', hp⟩ := ih _ p h
      exact ⟨m', List.mem_cons_of_mem _ hm', hp⟩

theorem create_favicon_writes (w : World) (fs : FS) (p : Path)
    (h : Event.writeE p ∈ (create_favicon_files w fs).2) :
    p = ["favicon.png"] ∨ p = ["favicon-16x16.png"] ∨ p = favicon_ico := by
  have hfc : Event.writeE p ∈ (favCopy fs).2 →
      p = ["favicon.png"] ∨ p = ["favicon-16x16.png"] := by
    intro hm
    obtain ⟨m, hm', hp⟩ := favCopyLoop_writes favicon_mappings fs p hm
    rw [favicon_mappings_eq] at hm'
    simp only [List.mem_cons, List.not_mem_nil, or_false] at hm'
    rcases hm' with rfl | rfl
    · exact Or.inl hp
    · exact Or.inr hp
  simp only [create_favicon_files] at h
  split at h
  · split at h <;>
      simp only [List.cons_append, List.mem_cons, List.mem_append,
        List.not_mem_nil, or_false] at h <;>
    · rcases h with h | h | h | h
      · simp at h
      · exact (hfc h).imp id Or.inl
      · simp at h
      · first
        | (simp only [Event.writeE.injEq] at h
           exact Or.inr (Or.inr h))
        | simp at h
  · simp only [List.mem_cons] at h
    rcases h with h | h
    · simp at h
    · exact (hfc h).imp id Or.inl

/-!  ## Claims  -/

/-- C1 counterexample: with every tool available and the source SVG
absent, the pipeline creates the `icons` directory strictly before the
missing-SVG failure is reported (and the directory exists at the end of
the run), so failure is not reported before any output directory is
created. -/
theorem C1_counterexample :
    FS.empty.fileExists svg_file = false ∧
    Event.logE "SVG file not found: prestige-ai-logo.svg" ∈
      (main allToolsWorld FS.empty).2 ∧
    Event.mkdirE ["icons"] ∈
      ((main allToolsWorld FS.empty).2.takeWhile
        (fun e => e != Event.logE "SVG file not found: prestige-ai-logo.svg")) ∧
    (main allToolsWorld FS.empty).1.dirExists ["icons"] = true := by
  decide

/-- C1 (amended): when the dependency check passes and the source SVG is
absent, the pipeline first creates the output directories, then reports
the missing-SVG failure and aborts with no rasterizer invocation and no
file write; the final filesystem is exactly the directory-initialized
one. -/
theorem C1_svg_missing_aborts_after_mkdir (w : World) (fs : FS)
    (hdep : (check_dependencies w).1 = true)
    (hsvg : fs.read svg_file = none) :
    Event.logE "SVG file not found: prestige-ai-logo.svg" ∈ (main w fs).2 ∧
    (∀ n : Nat, Event.rasterizeE n ∉ (main w fs).2) ∧
    (∀ p : Path, Event.writeE p ∉ (main w fs).2) ∧
    (main w fs).1 = (create_directories fs).1 := by
  have hsvg' : (create_directories fs).1.read svg_file = none := by
    rw [create_directories_read]
    exact hsvg
  have hgen : generate_png_sizes w (create_directories fs).1 =
      (false, (create_directories fs).1,
       [Event.logE "SVG file not found: prestige-ai-logo.svg"]) := by
    unfold generate_png_sizes
    rw [hsvg']
  have hmain : main w fs =
      ((create_directories fs).1,
       (check_dependencies w).2 ++ ((create_directories fs).2 ++
         ([Event.logE "SVG file not found: prestige-ai-logo.svg"] ++
          [Event.logE "Failed to generate PNG files"]))) := by
    simp [main, hdep, hgen]
  rw [hmain]
  have hdirtrace := create_directories_trace fs
  refine ⟨by simp, ?_, ?_, rfl⟩
  · intro n hmem
    simp only [List.mem_append] at hmem
    rcases hmem with hmem | hmem | hmem | hmem
    · simpa [Event.isProbeOrLog] using check_dependencies_events w _ hmem
    · rw [hdirtrace] at hmem
      obtain ⟨d, _, hd⟩ := List.mem_map.mp hmem
      simp at hd
    · simp at hmem
    · simp at hmem
  · intro p hmem
    simp only [List.mem_append] at hmem
    rcases hmem with hmem | hmem | hmem | hmem
    · simpa [Event.isProbeOrLog] using check_dependencies_events w _ hmem
    · rw [hdirtrace] at hmem
      obtain ⟨d, _, hd⟩ := List.mem_map.mp hmem
      simp at hd
    · simp at hmem
    · simp at hmem

/-- C1 witness: the amended claim evaluated on a concrete run. -/
theorem C1_witness :
    (check_dependencies allToolsWorld).1 = true ∧
    FS.empty.read svg_file = none ∧
    Event.logE "SVG file not found: prestige-ai-logo.svg" ∈
      (main allToolsWorld FS.empty).2 ∧
    (main allToolsWorld FS.empty).1 = (create_directories FS.empty).1 := by
  have h := C1_svg_missing_aborts_after_mkdir allToolsWorld FS.empty (by decide) rfl
  exact ⟨by decide, rfl, h.1, h.2.2.2⟩

/-- C2 counterexample: on macOS with a failing bundler, the assembler
returns failure but the staging iconset directory still exists and no
removal happens, contradicting deletion on the failure path. -/
theorem C2_counterexample :
    (create_icns_file darwinBundlerFailWorld FS.empty).1 = false ∧
    (create_icns_file darwinBundlerFailWorld FS.empty).2.1.dirExists iconset_dir = true ∧
    Event.removeE iconset_dir ∉
      (create_icns_file darwinBundlerFailWorld FS.empty).2.2 := by
  decide

/-- C2 (amended): on macOS the staging iconset directory is deleted on
the success path of the bundler invocation, and on the failure path the
function returns a failure signal but the staging directory is left in
place (no deletion is attempted). -/
theorem C2_icns_cleanup_success_only (w : World) (fs : FS)
    (hd : w.isDarwin = true) :
    ((∀ x, (w.icnsBundle x).isSome) →
      (create_icns_file w fs).1 = true ∧
      (create_icns_file w fs).2.1.dirExists iconset_dir = false ∧
      Event.removeE iconset_dir ∈ (create_icns_file w fs).2.2) ∧
    ((∀ x, w.icnsBundle x = none) →
      (create_icns_file w fs).1 = false ∧
      (create_icns_file w fs).2.1.dirExists iconset_dir = true ∧
      Event.removeE iconset_dir ∉ (create_icns_file w fs).2.2) := by
  constructor
  · intro hb
    obtain ⟨icns, hicns⟩ := Option.isSome_iff_exists.mp
      (hb (iconsetFiles (icnsCopyAll (fs.mkdir iconset_dir)).1))
    simp only [create_icns_file, hd, Bool.not_true, Bool.false_eq_true, if_false, hicns]
    refine ⟨trivial, FS.dirExists_removeTree_self _ _, ?_⟩
    simp
  · intro hb
    simp only [create_icns_file, hd, Bool.not_true, Bool.false_eq_true, if_false,
      hb (iconsetFiles (icnsCopyAll (fs.mkdir iconset_dir)).1)]
    refine ⟨trivial, ?_, ?_⟩
    · have hdirs : (icnsCopyAll (fs.mkdir iconset_dir)).1.dirs =
          (fs.mkdir iconset_dir).dirs := by
        unfold icnsCopyAll
        exact icnsCopyLoop_dirs icon_mappings (fs.mkdir iconset_dir)
      unfold FS.dirExists
      rw [hdirs]
      exact FS.dirExists_mkdir_self fs iconset_dir
    · intro hmem
      simp only [List.cons_append, List.mem_cons, List.mem_append,
        List.not_mem_nil, or_false] at hmem
      rcases hmem with hmem | hmem | hmem | hmem | hmem
      · simp at hmem
      · simp at hmem
      · have := icnsCopyLoop_events icon_mappings (fs.mkdir iconset_dir)
          _ hmem
        simp [Event.isCpOrWrite] at this
      · simp at hmem
      · simp at hmem

/-- C2 witness: the amended claim's success path evaluated on a
concrete macOS run with a succeeding bundler. -/
theorem C2_witness :
    (create_icns_file darwinWorld FS.empty).1 = true ∧
    (create_icns_file darwinWorld FS.empty).2.1.dirExists iconset_dir = false ∧
    Event.removeE iconset_dir ∈ (create_icns_file darwinWorld FS.empty).2.2 :=
  (C2_icns_cleanup_success_only darwinWorld FS.empty rfl).1 (fun _ => rfl)

/-- C3: raster generation is fail-fast: if every rasterizer invocation
succeeds, the function returns success and every configured size has
its file at `icons/png/icon-{size}x{size}.png` holding the rasterized
content; if the invocation for some size fails (all earlier ones having
succeeded), the function returns failure and the rasterizer was invoked
exactly for the earlier sizes and the failing one — never for a later
size. -/
theorem C3_raster_fail_fast (w : World) (fs : FS) (c : String)
    (hsvg : fs.read svg_file = some c) :
    ((∀ s ∈ sizes, (w.rasterize c s).isSome) →
      (generate_png_sizes w fs).1 = true ∧
      ∀ s ∈ sizes, (generate_png_sizes w fs).2.1.read (pngPath s) = w.rasterize c s) ∧
    (∀ (pre : List Nat) (s : Nat) (post : List Nat),
      sizes = pre ++ s :: post →
      (∀ p ∈ pre, (w.rasterize c p).isSome) →
      w.rasterize c s = none →
      (generate_png_sizes w fs).1 = false ∧
      rasterizedSizes (generate_png_sizes w fs).2.2 = pre ++ [s]) := by
  constructor
  · intro hall
    exact ⟨(generate_success w fs c hsvg hall).1,
      (generate_success w fs c hsvg hall).2.1⟩
  · intro pre s post hsplit hpre hfail
    have h := rasterLoop_fail w c s hfail pre post fs hpre
    have hg : generate_png_sizes w fs =
        ((rasterLoop w c sizes fs).1, (rasterLoop w c sizes fs).2.1,
         Event.logE "Generating PNG files..." :: (rasterLoop w c sizes fs).2.2) := by
      unfold generate_png_sizes
      rw [hsvg]
    rw [hg, hsplit]
    refine ⟨h.1, ?_⟩
    simp only [rasterizedSizes, List.filterMap_cons]
    exact h.2

/-- C3 witness: a rasterizer failing from size 48 on halts the loop at
48, with exactly sizes 16, 32 and 48 attempted. -/
theorem C3_witness :
    (generate_png_sizes rasterFailWorld svgOnlyFS).1 = false ∧
    rasterizedSizes (generate_png_sizes rasterFailWorld svgOnlyFS).2.2 = [16, 32, 48] := by
  have h := (C3_raster_fail_fast rasterFailWorld svgOnlyFS "svg-content" rfl).2
    [16, 32] 48 [64, 128, 256, 512, 1024] rfl (by decide) rfl
  exact ⟨h.1, h.2⟩

/-- C4: with a succeeding packer, the Windows assembler invokes the
packer and produces (writes) the `.ico` output exactly when at least one
of its six rasters exists; with none existing it returns failure and
never invokes the packer. -/
theorem C4_ico_iff_raster (w : World) (fs : FS)
    (hpk : ∀ xs, (w.pack xs).isSome) :
    (((∃ ins, Event.packE ins ico_output ∈ (create_ico_file w fs).2.2) ∧
        Event.writeE ico_output ∈ (create_ico_file w fs).2.2) ↔
      ∃ s ∈ ico_sizes, fs.fileExists (pngPath s) = true) ∧
    ((∀ s ∈ ico_sizes, fs.fileExists (pngPath s) = false) →
      (create_ico_file w fs).1 = false ∧
      ∀ (ins : List Path) (out : Path),
        Event.packE ins out ∉ (create_ico_file w fs).2.2) := by
  have key : ((ico_sizes.map pngPath).filter fs.fileExists = []) ↔
      ∀ s ∈ ico_sizes, fs.fileExists (pngPath s) = false := by
    rw [List.filter_eq_nil_iff]
    constructor
    · intro h s hs
      have := h (pngPath s) (List.mem_map_of_mem _ hs)
      simpa using this
    · intro h p hp
      obtain ⟨s, hs, rfl⟩ := List.mem_map.mp hp
      simp [h s hs]
  cases he : (ico_sizes.map pngPath).filter fs.fileExists with
  | nil =>
    have hnone := key.mp he
    have hico : create_ico_file w fs =
        (false, fs, [Event.logE "No PNG files found for .ico creation"]) := by
      simp [create_ico_file, he]
    rw [hico]
    constructor
    · constructor
      · rintro ⟨⟨ins, hmem⟩, _⟩
        simp at hmem
      · rintro ⟨s, hs, hex⟩
        rw [hnone s hs] at hex
        cases hex
    · intro _
      refine ⟨rfl, ?_⟩
      intro ins out hmem
      simp at hmem
  | cons hd tl =>
    obtain ⟨v, hv⟩ := Option.isSome_iff_exists.mp (hpk ((hd :: tl).filterMap fs.read))
    have hico : create_ico_file w fs =
        (true, fs.write ico_output v,
         [Event.logE "Creating .ico file...",
          Event.packE (hd :: tl) ico_output, Event.writeE ico_output]) := by
      simp [create_ico_file, he, hv]
    rw [hico]
    constructor
    · constructor
      · intro _
        have hhd : hd ∈ (ico_sizes.map pngPath).filter fs.fileExists := by
          rw [he]
          exact List.mem_cons_self _ _
        have hmf := List.mem_filter.mp hhd
        obtain ⟨s, hs, rfl⟩ := List.mem_map.mp hmf.1
        exact ⟨s, hs, hmf.2⟩
      · intro _
        exact ⟨⟨hd :: tl, by simp⟩, by simp⟩
    · intro hnone
      rw [key.mpr hnone] at he
      cases he

/-- C4 witness: with only the 16px raster present the packer is invoked
and the `.ico` output is written. -/
theorem C4_witness :
    (∃ ins, Event.packE ins ico_output ∈ (create_ico_file allToolsWorld png16FS).2.2) ∧
    Event.writeE ico_output ∈ (create_ico_file allToolsWorld png16FS).2.2 :=
  (C4_ico_iff_raster allToolsWorld png16FS (fun _ => rfl)).1.mpr
    ⟨16, by decide, by decide⟩

/-- C5: the favicon assembler invokes the packer for `favicon.ico`
exactly when both the 16px and 32px rasters exist beforehand; when the
packer fails, the failure is only logged; and whenever the raster stage
of the whole pipeline succeeds, the config emitter still writes its
output (so a favicon failure aborts nothing that follows). -/
theorem C5_favicon_best_effort (w : World) (fs : FS) :
    (Event.packE [pngPath 16, pngPath 32] favicon_ico ∈ (create_favicon_files w fs).2 ↔
      fs.fileExists (pngPath 16) = true ∧ fs.fileExists (pngPath 32) = true) ∧
    ((∀ xs, w.pack xs = none) →
      fs.fileExists (pngPath 16) = true → fs.fileExists (pngPath 32) = true →
      Event.logE "Failed to create favicon.ico" ∈ (create_favicon_files w fs).2) ∧
    (∀ c : String, (check_dependencies w).1 = true → fs.read svg_file = some c →
      (∀ s ∈ sizes, (w.rasterize c s).isSome) →
      Event.writeE config_output ∈ (main w fs).2) := by
  have hf16 : (favCopy fs).1.fileExists (pngPath 16) = fs.fileExists (pngPath 16) := by
    unfold FS.fileExists
    rw [favCopy_read_pngPath]
  have hf32 : (favCopy fs).1.fileExists (pngPath 32) = fs.fileExists (pngPath 32) := by
    unfold FS.fileExists
    rw [favCopy_read_pngPath]
  refine ⟨⟨?_, ?_⟩, ?_, ?_⟩
  · intro hmem
    simp only [create_favicon_files] at hmem
    split at hmem
    · rename_i hcond
      rw [hf16, hf32, Bool.and_eq_true] at hcond
      exact hcond
    · simp only [List.mem_cons] at hmem
      rcases hmem with hmem | hmem
      · cases hmem
      · exact absurd hmem (favCopyLoop_no_pack favicon_mappings fs _ _)
  · intro h
    exact create_favicon_pack_mem w fs h.1 h.2
  · intro hpk h16 h32
    have e16 : (favCopy fs).1.fileExists (pngPath 16) = true := by
      rw [hf16]; exact h16
    have e32 : (favCopy fs).1.fileExists (pngPath 32) = true := by
      rw [hf32]; exact h32
    simp only [create_favicon_files, e16, e32, Bool.and_self, if_true,
      hpk ([pngPath 16, pngPath 32].filterMap (favCopy fs).1.read)]
    simp
  · intro c hdep hsvg hall
    exact main_config_write w fs c hdep hsvg hall

/-- C5 witness: the gating direction at a concrete filesystem with both
rasters, and the config write on a concrete successful run. -/
theorem C5_witness :
    Event.packE [pngPath 16, pngPath 32] favicon_ico ∈
      (create_favicon_files allToolsWorld pngPairFS).2 ∧
    Event.writeE config_output ∈ (main allToolsWorld svgOnlyFS).2 :=
  ⟨(C5_favicon_best_effort allToolsWorld pngPairFS).1.mpr ⟨by decide, by decide⟩,
   (C5_favicon_best_effort allToolsWorld svgOnlyFS).2.2 "svg-content"
     (by decide) rfl (fun _ _ => rfl)⟩

/-- C6: when the dependency prober reports a missing mandatory tool the
pipeline terminates with the filesystem untouched and no mutation event
in its trace. -/
theorem C6_missing_tool_no_mutation (w : World) (fs : FS)
    (hdep : (check_dependencies w).1 = false) :
    (main w fs).1 = fs ∧ ∀ e ∈ (main w fs).2, e.isMutation = false := by
  have hmain : main w fs =
      (fs, (check_dependencies w).2 ++
        [Event.logE "Please install required dependencies and try again"]) := by
    simp [main, hdep]
  rw [hmain]
  refine ⟨rfl, ?_⟩
  intro e he
  simp only [List.mem_append, List.mem_singleton] at he
  rcases he with he | rfl
  · have h := check_dependencies_events w e he
    cases e <;> simp_all [Event.isProbeOrLog, Event.isMutation]
  · rfl

/-- C6 witness: on a host missing the rasterizer, the pipeline leaves a
concrete filesystem untouched. -/
theorem C6_witness :
    (check_dependencies noMagickWorld).1 = false ∧
    (main noMagickWorld svgOnlyFS).1 = svgOnlyFS ∧
    ∀ e ∈ (main noMagickWorld svgOnlyFS).2, e.isMutation = false := by
  have h := C6_missing_tool_no_mutation noMagickWorld svgOnlyFS (by decide)
  exact ⟨by decide, h.1, h.2⟩

/-- C7: once raster generation has succeeded, all three assemblers run
(the macOS bundler invocation on macOS, its skip log otherwise, and both
packer invocations) and the config emitter writes its output — with
arbitrary bundler/packer oracles, so any assembler failure blocks
neither its siblings nor the config step. -/
theorem C7_assembler_isolation (w : World) (fs : FS) (c : String)
    (hdep : (check_dependencies w).1 = true)
    (hsvg : fs.read svg_file = some c)
    (hall : ∀ s ∈ sizes, (w.rasterize c s).isSome) :
    (w.isDarwin = true → Event.icnsRunE iconset_dir ∈ (main w fs).2) ∧
    (w.isDarwin = false →
      Event.logE "Skipping .icns creation (not on macOS)" ∈ (main w fs).2) ∧
    Event.packE (ico_sizes.map pngPath) ico_output ∈ (main w fs).2 ∧
    Event.packE [pngPath 16, pngPath 32] favicon_ico ∈ (main w fs).2 ∧
    Event.writeE config_output ∈ (main w fs).2 := by
  have hsub : ∀ s ∈ ico_sizes, s ∈ sizes := by decide
  have hsvg' : (create_directories fs).1.read svg_file = some c := by
    rw [create_directories_read]
    exact hsvg
  have hgen := (generate_success w (create_directories fs).1 c hsvg' hall).2.1
  have hex1 : ∀ s ∈ ico_sizes,
      (create_icns_file w
        (generate_png_sizes w (create_directories fs).1).2.1).2.1.fileExists
        (pngPath s) = true := by
    intro s hs
    unfold FS.fileExists
    rw [create_icns_read _ _ _ (by rw [pngPath_take]; decide) (pngPath_ne_double s _ _),
      hgen s (hsub s hs)]
    exact hall s (hsub s hs)
  have hico := create_ico_pack_mem w _ hex1
  have hex2 : ∀ s ∈ ico_sizes,
      (create_ico_file w
        (create_icns_file w
          (generate_png_sizes w (create_directories fs).1).2.1).2.1).2.1.fileExists
        (pngPath s) = true := by
    intro s hs
    unfold FS.fileExists
    rw [create_ico_read _ _ _ (pngPath_ne_double s _ _)]
    exact hex1 s hs
  have hfav := create_favicon_pack_mem w _ (hex2 16 (by decide)) (hex2 32 (by decide))
  have hcfg := main_config_write w fs c hdep hsvg hall
  refine ⟨?_, ?_, ?_, ?_, hcfg⟩
  · intro hd
    have h := create_icns_run_mem w
      (generate_png_sizes w (create_directories fs).1).2.1 hd
    rw [main_success_snd w fs c hdep hsvg hall]
    simp only [List.mem_append]
    tauto
  · intro hd
    have h : Event.logE "Skipping .icns creation (not on macOS)" ∈
        (create_icns_file w
          (generate_png_sizes w (create_directories fs).1).2.1).2.2 := by
      rw [create_icns_skip _ _ hd]
      simp
    rw [main_success_snd w fs c hdep hsvg hall]
    simp only [List.mem_append]
    tauto
  · rw [main_success_snd w fs c hdep hsvg hall]
    simp only [List.mem_append]
    tauto
  · rw [main_success_snd w fs c hdep hsvg hall]
    simp only [List.mem_append]
    tauto

/-- C7 witness: on a concrete successful non-macOS run, both packer
invocations, the skip log and the config write all appear. -/
theorem C7_witness :
    Event.packE (ico_sizes.map pngPath) ico_output ∈ (main allToolsWorld svgOnlyFS).2 ∧
    Event.packE [pngPath 16, pngPath 32] favicon_ico ∈ (main allToolsWorld svgOnlyFS).2 ∧
    Event.writeE config_output ∈ (main allToolsWorld svgOnlyFS).2 ∧
    Event.logE "Skipping .icns creation (not on macOS)" ∈ (main allToolsWorld svgOnlyFS).2 := by
  have h := C7_assembler_isolation allToolsWorld svgOnlyFS "svg-content"
    (by decide) rfl (fun _ _ => rfl)
  exact ⟨h.2.2.1, h.2.2.2.1, h.2.2.2.2, h.2.1 rfl⟩

/-- C8: off macOS the macOS bundle assembler returns success, leaves the
filesystem exactly as it was, and emits no mutation event. -/
theorem C8_icns_noop_off_macos (w : World) (fs : FS) (hd : w.isDarwin = false) :
    (create_icns_file w fs).1 = true ∧
    (create_icns_file w fs).2.1 = fs ∧
    ∀ e ∈ (create_icns_file w fs).2.2, e.isMutation = false := by
  rw [create_icns_skip w fs hd]
  refine ⟨rfl, rfl, ?_⟩
  intro e he
  simp only [List.mem_singleton] at he
  rw [he]
  rfl

/-- C8 witness: the no-op on a concrete non-macOS host. -/
theorem C8_witness :
    (create_icns_file allToolsWorld svgOnlyFS).1 = true ∧
    (create_icns_file allToolsWorld svgOnlyFS).2.1 = svgOnlyFS ∧
    ∀ e ∈ (create_icns_file allToolsWorld svgOnlyFS).2.2, e.isMutation = false :=
  C8_icns_noop_off_macos allToolsWorld svgOnlyFS rfl

/-- C9: the favicon copy mapping resolves its duplicate 32px key
last-write-wins: the effective mapping sends the 32px raster only to
`favicon.png`, the file `favicon-32x32.png` is never written, and the
16px raster is copied to `favicon-16x16.png`. -/
theorem C9_favicon_last_write_wins (w : World) (fs : FS) :
    favicon_mappings = [(pngPath 32, "favicon.png"), (pngPath 16, "favicon-16x16.png")] ∧
    Event.writeE ["favicon-32x32.png"] ∉ (create_favicon_files w fs).2 ∧
    (fs.fileExists (pngPath 32) = true →
      (create_favicon_files w fs).1.read ["favicon.png"] = fs.read (pngPath 32)) ∧
    (fs.fileExists (pngPath 16) = true →
      (create_favicon_files w fs).1.read ["favicon-16x16.png"] = fs.read (pngPath 16)) := by
  refine ⟨favicon_mappings_eq, ?_, ?_, ?_⟩
  · intro hmem
    rcases create_favicon_writes w fs _ hmem with h | h | h <;>
      simp [favicon_ico] at h
  · intro h32
    obtain ⟨c32, hc32⟩ := Option.isSome_iff_exists.mp h32
    rw [create_favicon_read_favCopy w fs _ (by decide),
      favCopy_read_faviconpng fs c32 hc32, hc32]
  · intro h16
    obtain ⟨c16, hc16⟩ := Option.isSome_iff_exists.mp h16
    rw [create_favicon_read_favCopy w fs _ (by decide),
      favCopy_read_favicon16 fs c16 hc16, hc16]

/-- C9 witness: the copy behaviour on a concrete filesystem holding both
rasters. -/
theorem C9_witness :
    Event.writeE ["favicon-32x32.png"] ∉
      (create_favicon_files allToolsWorld pngPairFS).2 ∧
    (create_favicon_files allToolsWorld pngPairFS).1.read ["favicon.png"] =
      pngPairFS.read (pngPath 32) ∧
    (create_favicon_files allToolsWorld pngPairFS).1.read ["favicon-16x16.png"] =
      pngPairFS.read (pngPath 16) := by
  have h := C9_favicon_last_write_wins allToolsWorld pngPairFS
  exact ⟨h.2.1, h.2.2.1 (by decide), h.2.2.2 (by decide)⟩

/-- C10: with deterministic tool oracles, a successful run writes every
configured PNG with its rasterized content, and re-running the whole
pipeline on the resulting filesystem reproduces the very same PNG
outputs (idempotence, hence run-to-run determinism). -/
theorem C10_rerun_identical (w : World) (fs : FS) (c : String)
    (hdep : (check_dependencies w).1 = true)
    (hsvg : fs.read svg_file = some c)
    (hall : ∀ s ∈ sizes, (w.rasterize c s).isSome) :
    pngOutputs (main w (main w fs).1).1 = pngOutputs (main w fs).1 ∧
    ∀ s ∈ sizes, (main w fs).1.read (pngPath s) = w.rasterize c s := by
  have h1 := main_read_pngPath w fs c hdep hsvg hall
  have hsvg1 := main_read_svg w fs c hdep hsvg hall
  have h2 := main_read_pngPath w (main w fs).1 c hdep hsvg1 hall
  refine ⟨?_, h1⟩
  unfold pngOutputs
  exact List.map_congr_left (fun s hs => by rw [h2 s hs, h1 s hs])

/-- C10 witness: two consecutive concrete runs with identical inputs
produce identical PNG outputs. -/
theorem C10_witness :
    pngOutputs (main allToolsWorld (main allToolsWorld svgOnlyFS).1).1 =
      pngOutputs (main allToolsWorld svgOnlyFS).1 :=
  (C10_rerun_identical allToolsWorld svgOnlyFS "svg-content"
    (by decide) rfl (fun _ _ => rfl)).1

end IconGen
